import Mathlib

/-!
Verification of the core project-discovery and container-resolution logic of
the `dip` command-line tool (sources: `src/dip/project.py`, `src/dip/config.py`,
`src/dip/manager.py`, `src/dip/models.py`).

Modelling conventions:
* Python strings are modelled as `List Char` (called `Str` here); whitespace
  stripping covers the ASCII whitespace characters.
* Python dictionaries (the parsed environment file, `os.environ`, the
  subprocess environment) are modelled as functions `Str → Option Str`;
  `dict.update` / key insertion becomes functional override.
* Filesystem paths are modelled per component; for the upward project-root
  walk a directory is a list of path components with the DEEPEST component
  first, so taking the parent of a non-root directory is `List.tail` and
  the filesystem root is `[]` (whose parent is itself, as for `Path("/")`).
* `sys.exit(1)` / raised exceptions are modelled as explicit error values.
-/

namespace Dip

/-- Python strings are modelled as lists of characters. -/
abbrev Str := List Char

/-- Coerce a Lean string literal to the model's string type. -/
def str (s : String) : Str := s.data

/-- ASCII whitespace, as stripped by Python's `str.strip()`. -/
def isWS (c : Char) : Bool :=
  c = ' ' || c = '\t' || c = '\n' || c = '\r' || c = '\x0b' || c = '\x0c'

/-- Drop leading whitespace characters. -/
def trimLeft : Str → Str
  | [] => []
  | c :: t => if isWS c then trimLeft t else c :: t

/-- `line.strip()`: drop whitespace from both ends. -/
def trim (s : Str) : Str := (trimLeft (trimLeft s).reverse).reverse

/-- `line.split('=', 1)`: split at the first `'='`; `none` when the line
contains no `'='` (Python: `'=' in line` is false). -/
def splitFirstEq : Str → Option (Str × Str)
  | [] => none
  | c :: t =>
    if c = '=' then some ([], t)
    else
      match splitFirstEq t with
      | some (k, v) => some (c :: k, v)
      | none => none

/-- A Python `dict[str, str]`, viewed as a partial map. -/
abbrev EnvF := Str → Option Str

/-- The empty dictionary. -/
def emptyEnv : EnvF := fun _ => none

/-- `d[k] = v`: functional override of one key. -/
def insertEnv (m : EnvF) (k v : Str) : EnvF :=
  fun q => if q = k then some v else m q

/-- One loop iteration of the env-file reader (`ProjectConfig.__init__`):
strip the line; skip it when blank, when it starts with `'#'`, or when it
has no `'='`; otherwise split on the first `'='` and strip key and value. -/
def classifyLine (line : Str) : Option (Str × Str) :=
  let l := trim line
  if l = [] then none
  else if l.head? = some '#' then none
  else
    match splitFirstEq l with
    | some (k, v) => some (trim k, trim v)
    | none => none

/-- Fold step of the env-file reader: a classified line updates the dict. -/
def stepLine (m : EnvF) (line : Str) : EnvF :=
  match classifyLine line with
  | some (k, v) => insertEnv m k v
  | none => m

/-- The env-file reader loop of `ProjectConfig.__init__` (project.py
lines 38-43), over the file's lines. -/
def parseEnvLines (lines : List Str) : EnvF :=
  lines.foldl stepLine emptyEnv

/-! Reserved environment-variable names (`config.py`, `Config.env_name`)
and the default container root (`Config.container_root`). -/

/-- `Config.bin_name` (config.py). -/
def bin_name : Str := str "dip"

/-- `DIR_NAME = f".{config.bin_name}"` (project.py line 9). -/
def DIR_NAME : Str := str "." ++ bin_name

/-- `Config.container_root` (config.py line 7). -/
def containerRootDefault : Str := str "/var/www"

/-- `config.env_name['project_name']`. -/
def keyProjectName : Str := str "PROJECT_NAME"

/-- `config.env_name['project_root']`. -/
def keyProjectRoot : Str := str "PROJECT_ROOT"

/-- `config.env_name['env_file']`. -/
def keyEnvFile : Str := str "ENV_FILE"

/-- `config.env_name['dip_dir']`. -/
def keyDipDir : Str := str "DIP_DIR"

/-- `config.env_name['container_root']`. -/
def keyContainerRoot : Str := str "CONTAINER_ROOT"

/-- `config.env_name['host_uid']`. -/
def keyHostUid : Str := str "HOST_UID"

/-- `config.env_name['host_gid']`. -/
def keyHostGid : Str := str "HOST_GID"

/-- `config.env_name['compose_name']` — the compose tool's reserved
project-name variable. -/
def keyComposeName : Str := str "COMPOSE_PROJECT_NAME"

/-- The eight reserved keys overlaid last by `ProjectConfig.get_env`. -/
def reservedKeys : List Str :=
  [keyProjectRoot, keyProjectName, keyComposeName, keyContainerRoot,
   keyDipDir, keyEnvFile, keyHostUid, keyHostGid]

/-- Errors raised by `ProjectConfig.__init__`: `FileNotFoundError` when the
env file is missing with no template, `ValueError` when `PROJECT_NAME` is
missing from the loaded environment. -/
inductive CfgError where
  | envFileNotFound
  | projectNameMissing
  deriving DecidableEq

/-- The single non-fatal warning `ProjectConfig.__init__` can emit:
`CONTAINER_ROOT` unset, default path used (project.py lines 54-57). -/
inductive Warning where
  | containerRootDefault
  deriving DecidableEq

/-- The fields of `ProjectConfig` (project.py) that survive construction. -/
structure ProjectConfig where
  root_dir : Str
  dip_dir : Str
  env_file : Str
  default_env_file : Str
  compose_file : Str
  project_name : Str
  container_dir : Str
  env_name : EnvF

/-- `ProjectConfig.__init__` after the env file exists (project.py lines
17-57): parse the file's lines, require a truthy `PROJECT_NAME`, and take
`CONTAINER_ROOT` when truthy, else the default plus one warning. The
returned list collects the warnings emitted during construction. -/
def mkProjectConfig (root : Str) (lines : List Str) :
    Except CfgError (ProjectConfig × List Warning) :=
  let dip_dir := root ++ str "/" ++ DIR_NAME
  let env_name := parseEnvLines lines
  match env_name keyProjectName with
  | none => .error .projectNameMissing
  | some pn =>
    if pn = [] then .error .projectNameMissing
    else
      let cw : Str × List Warning :=
        match env_name keyContainerRoot with
        | some c =>
          if c = [] then (containerRootDefault, [.containerRootDefault])
          else (c, [])
        | none => (containerRootDefault, [.containerRootDefault])
      .ok ({ root_dir := root
             dip_dir := dip_dir
             env_file := dip_dir ++ str "/.env"
             default_env_file := dip_dir ++ str "/default.env"
             compose_file := dip_dir ++ str "/docker-compose.yml"
             project_name := pn
             container_dir := cw.1
             env_name := env_name }, cw.2)

/-- `ProjectConfig.get_env` (project.py lines 68-84): copy the process
environment, overlay the parsed env file, then overlay the eight reserved
computed keys. `uid`/`gid` stand for `str(os.getuid())`/`str(os.getgid())`. -/
def get_env (cfg : ProjectConfig) (procEnv : EnvF) (uid gid : Str) : EnvF :=
  let env1 : EnvF := fun k =>
    match cfg.env_name k with
    | some v => some v
    | none => procEnv k
  insertEnv (insertEnv (insertEnv (insertEnv (insertEnv (insertEnv (insertEnv
    (insertEnv env1
      keyProjectRoot cfg.root_dir)
      keyProjectName cfg.project_name)
      keyComposeName cfg.project_name)
      keyContainerRoot cfg.container_dir)
      keyDipDir cfg.dip_dir)
      keyEnvFile cfg.env_file)
      keyHostUid uid)
      keyHostGid gid

/-- The part of the filesystem `ProjectConfig.__init__` touches before
parsing: the contents of `.dip/.env` and `.dip/default.env` when present. -/
structure FS where
  envFile : Option Str
  defaultEnvFile : Option Str
  deriving DecidableEq

/-- The first-run bootstrap of `ProjectConfig.__init__` (project.py lines
29-36): when the live env file is missing, copy the template into it when
one exists, else fail; when the live file exists, leave the FS untouched. -/
def bootstrapEnv (fs : FS) : Except CfgError FS :=
  match fs.envFile with
  | some _ => .ok fs
  | none =>
    match fs.defaultEnvFile with
    | some content => .ok { fs with envFile := some content }
    | none => .error .envFileNotFound

/-- The fields of `DockerContainer` (models.py); the creation timestamp is
kept as its textual form. -/
structure DockerContainer where
  id : Str
  names : Str
  service : Str
  image : Str
  state : Str
  status : Str
  created : Str
  ports : Str

/-- Python `s.startswith(p)`. -/
def strStartsWith : Str → Str → Bool
  | _, [] => true
  | [], _ :: _ => false
  | c :: s, d :: p => c = d && strStartsWith s p

/-- The loop condition of `CliManager.get_container` (manager.py line 135):
the engine-reported service equals the request and the display name starts
with `"<project_name>-<service>"`. -/
def containerMatches (project_name service : Str) (c : DockerContainer) : Bool :=
  c.service = service && strStartsWith c.names (project_name ++ str "-" ++ service)

/-- Outcome of `CliManager.get_container`: a container, the fatal
`output.error` + `sys.exit(1)` path, or the `None` return. -/
inductive GetContainerResult where
  | found (c : DockerContainer)
  | fatal
  | notFound

/-- `CliManager.get_container` (manager.py lines 129-143) over the
engine-returned container list. -/
def get_container (project_name : Str) (containers : List DockerContainer)
    (service : Str) (no_error : Bool) : GetContainerResult :=
  match containers.find? (containerMatches project_name service) with
  | some c => .found c
  | none => if !no_error then .fatal else .notFound

/-- `find_root` inside `load_project` (project.py lines 89-95). A directory
is a list of path components, deepest first; `hasMarker p` abstracts
`(p / DIR_NAME).is_dir()`. The `while current != current.parent` guard is
tested before the marker check, so the filesystem root `[]` is never
examined. -/
def find_root (hasMarker : List Str → Bool) : List Str → Option (List Str)
  | [] => none
  | p :: t => if hasMarker (p :: t) then some (p :: t) else find_root hasMarker t

/-- Inspect a successful construction: the `ProjectConfig` part. -/
def builtConfig (root : Str) (lines : List Str) : Option ProjectConfig :=
  match mkProjectConfig root lines with
  | .ok (pc, _) => some pc
  | .error _ => none

/-- Inspect a successful construction: the warnings emitted. -/
def builtWarnings (root : Str) (lines : List Str) : Option (List Warning) :=
  match mkProjectConfig root lines with
  | .ok (_, w) => some w
  | .error _ => none

/-- View of the compose-project key in the subprocess environment of a
successfully constructed project (empty process environment, uid/gid 0). -/
def composeNameView (root : Str) (lines : List Str) : Option (Option Str) :=
  match mkProjectConfig root lines with
  | .ok (pc, _) => some (get_env pc emptyEnv (str "0") (str "0") keyComposeName)
  | .error _ => none

/-! ## Theorems -/

/-- C1. `get_container` returns the first record, in engine-returned order,
whose engine-reported service field equals the requested service and whose
display name starts with `"<project_name>-<service>"`; both conditions are
required, so a record matching on service alone is never returned. -/
theorem get_container_first_match (pn service : Str) (ne : Bool)
    (cs : List DockerContainer) (c : DockerContainer) :
    get_container pn cs service ne = .found c ↔
      containerMatches pn service c = true ∧
      ∃ l1 l2, cs = l1 ++ c :: l2 ∧
        ∀ x ∈ l1, containerMatches pn service x = false := by
  have hfind : cs.find? (containerMatches pn service) = some c ↔
      containerMatches pn service c = true ∧
      ∃ l1 l2, cs = l1 ++ c :: l2 ∧
        ∀ x ∈ l1, containerMatches pn service x = false := by
    rw [List.find?_eq_some]
    simp
  rw [← hfind]
  unfold get_container
  cases h : cs.find? (containerMatches pn service) with
  | some c' => simp
  | none =>
    cases ne <;> simp

/-- C1 witness: the spec's three-record scenario — service fields
`["web","web","db"]`, names `["proj-web-1","other-web-1","proj-db-1"]`;
resolving `"web"` under project `"proj"` yields the first record only. -/
theorem get_container_first_match_witness :
    get_container (str "proj")
      [⟨str "1", str "proj-web-1", str "web", [], [], [], [], []⟩,
       ⟨str "2", str "other-web-1", str "web", [], [], [], [], []⟩,
       ⟨str "3", str "proj-db-1", str "db", [], [], [], [], []⟩]
      (str "web") false
      = .found ⟨str "1", str "proj-web-1", str "web", [], [], [], [], []⟩ := by
  apply (get_container_first_match (str "proj") (str "web") false _ _).mpr
  refine ⟨by decide, [], _, rfl, ?_⟩
  intro x hx
  simp at hx

/-- C5. When no container matches: with `no_error = false` the resolution is
the fatal error path (`output.error` + `sys.exit(1)`); with `no_error = true`
it returns `None` and the caller proceeds. -/
theorem get_container_no_match (pn service : Str) (cs : List DockerContainer)
    (h : ∀ c ∈ cs, containerMatches pn service c = false) :
    get_container pn cs service false = .fatal ∧
    get_container pn cs service true = .notFound := by
  have hfind : cs.find? (containerMatches pn service) = none := by
    rw [List.find?_eq_none]
    intro x hx
    simp [h x hx]
  constructor <;> simp [get_container, hfind]

/-- C5 witness: a single `db` container never matches service `web`, so the
required lookup is fatal and the optional lookup returns `None`. -/
theorem get_container_no_match_witness :
    get_container (str "proj") [⟨str "3", str "proj-db-1", str "db", [], [], [], [], []⟩]
      (str "web") false = .fatal ∧
    get_container (str "proj") [⟨str "3", str "proj-db-1", str "db", [], [], [], [], []⟩]
      (str "web") true = .notFound :=
  get_container_no_match (str "proj") (str "web") _ (by decide)

/-- C3. The project locator, characterized completely: the walk returns a
directory `q` exactly when `q` is a non-root ancestor-or-self of the start
(a suffix in the deepest-first encoding) that carries the marker and no
strictly nearer ancestor-or-self carries it (nearest match wins, the walk
stops at the first match); whenever any non-root ancestor-or-self of the
start carries the marker, the walk does return a directory at least as
near; and when no ancestor-or-self of the start carries the marker, the
walk returns `none` rather than failing. -/
theorem find_root_spec (hm : List Str → Bool) (p : List Str) :
    (∀ q, find_root hm p = some q ↔
      q ≠ [] ∧ q <:+ p ∧ hm q = true ∧
      ∀ r, r ≠ q → q <:+ r → r <:+ p → hm r = false) ∧
    (∀ q, q ≠ [] → q <:+ p → hm q = true →
      ∃ r, find_root hm p = some r ∧ hm r = true ∧ q <:+ r) ∧
    ((∀ q, q <:+ p → hm q = false) → find_root hm p = none) := by
  induction p with
  | nil =>
    refine ⟨fun q => ⟨fun h => by simp [find_root] at h, ?_⟩,
      fun q hq hsuf _ => absurd (List.suffix_nil.mp hsuf) hq, fun _ => rfl⟩
    rintro ⟨hne, hsuf, -, -⟩
    exact absurd (List.suffix_nil.mp hsuf) hne
  | cons a t ih =>
    by_cases hmar : hm (a :: t) = true
    · have hfind : find_root hm (a :: t) = some (a :: t) := by
        simp [find_root, hmar]
      refine ⟨fun q => ?_, fun q hq hsuf hmq => ⟨a :: t, hfind, hmar, hsuf⟩,
        fun hall => ?_⟩
      · rw [hfind]
        constructor
        · intro h
          obtain rfl := Option.some.inj h
          refine ⟨by simp, List.suffix_refl _, hmar, fun r hne hqr hrp => ?_⟩
          exact absurd (List.IsSuffix.eq_of_length hrp
            (Nat.le_antisymm hrp.length_le hqr.length_le)) hne
        · rintro ⟨hne, hsuf, hmq, hnear⟩
          by_cases hq : q = a :: t
          · rw [hq]
          · exfalso
            have hr := hnear (a :: t) (fun hh => hq hh.symm) hsuf
              (List.suffix_refl _)
            rw [hmar] at hr
            exact Bool.noConfusion hr
      · have hr := hall (a :: t) (List.suffix_refl _)
        rw [hmar] at hr
        exact Bool.noConfusion hr
    · have hfalse : hm (a :: t) = false := by
        cases hv : hm (a :: t)
        · rfl
        · exact absurd hv hmar
      have hstep : find_root hm (a :: t) = find_root hm t := by
        simp [find_root, hfalse]
      obtain ⟨ih1, ih2, ih3⟩ := ih
      refine ⟨fun q => ?_, fun q hq hsuf hmq => ?_, fun hall => ?_⟩
      · rw [hstep, ih1 q]
        constructor
        · rintro ⟨hne, hsuf, hmq, hnear⟩
          refine ⟨hne, hsuf.trans (List.suffix_cons a t), hmq,
            fun r hne' hqr hrp => ?_⟩
          rcases List.suffix_cons_iff.mp hrp with rfl | hrt
          · exact hfalse
          · exact hnear r hne' hqr hrt
        · rintro ⟨hne, hsuf, hmq, hnear⟩
          have hqt : q <:+ t := by
            rcases List.suffix_cons_iff.mp hsuf with rfl | h
            · rw [hmq] at hfalse
              exact Bool.noConfusion hfalse
            · exact h
          exact ⟨hne, hqt, hmq,
            fun r hne' hqr hrt => hnear r hne' hqr
              (hrt.trans (List.suffix_cons a t))⟩
      · have hqt : q <:+ t := by
          rcases List.suffix_cons_iff.mp hsuf with rfl | h
          · rw [hmq] at hfalse
            exact Bool.noConfusion hfalse
          · exact h
        obtain ⟨r, hr, hmr, hqr⟩ := ih2 q hq hqt hmq
        exact ⟨r, by rw [hstep]; exact hr, hmr, hqr⟩
      · rw [hstep]
        exact ih3 fun q hq => hall q (hq.trans (List.suffix_cons a t))

/-- C3 witness: the spec's `/a/b/c` scenario with the marker only at `/a/b`
(paths encoded deepest-component first): the completeness part forces a
result at least as near as `/a/b`, and the marker pins it to `/a/b`, so
locating from `/a/b/c` returns `/a/b`; locating with no marker anywhere
returns `none`. -/
theorem find_root_spec_witness :
    find_root (fun q => decide (q = [str "b", str "a"]))
        [str "c", str "b", str "a"] = some [str "b", str "a"] ∧
    (fun q => decide (q = [str "b", str "a"])) [str "b", str "a"] = true ∧
    find_root (fun _ => false) [str "c", str "b", str "a"] = none := by
  refine ⟨?_, by decide,
    (find_root_spec (fun _ => false) [str "c", str "b", str "a"]).2.2
      (fun _ _ => rfl)⟩
  obtain ⟨r, hfind, hmr, -⟩ :=
    (find_root_spec (fun q => decide (q = [str "b", str "a"]))
        [str "c", str "b", str "a"]).2.1 [str "b", str "a"]
      (by decide) ⟨[str "c"], rfl⟩ (by decide)
  rw [of_decide_eq_true hmr] at hfind
  exact hfind

/-- C9. The upward walk never examines the filesystem root itself: if the
marker is found only at the root (the marker predicate holds nowhere but at
`[]`), `find_root` returns `none` for every start directory — the loop
guard `current != current.parent` fails before the root is checked. -/
theorem find_root_skips_fs_root (hm : List Str → Bool) (p : List Str)
    (h : ∀ q, hm q = true → q = []) :
    find_root hm p = none := by
  induction p with
  | nil => rfl
  | cons a t ih =>
    have hfalse : hm (a :: t) = false := by
      cases hv : hm (a :: t)
      · rfl
      · exact absurd (h _ hv) (by simp)
    simp [find_root, hfalse, ih]

/-- C9 witness: a marker present exactly at the filesystem root is never
found, even though the marker predicate holds at the root. -/
theorem find_root_skips_fs_root_witness :
    (fun q : List Str => q.isEmpty) [] = true ∧
    find_root (fun q => q.isEmpty) [str "c", str "b", str "a"] = none :=
  ⟨rfl, find_root_skips_fs_root (fun q => q.isEmpty) [str "c", str "b", str "a"]
    (fun q hq => by cases q with | nil => rfl | cons x xs => simp [List.isEmpty] at hq)⟩

/-- C6. First-run bootstrap of the live env file: when `.dip/.env` is
missing and `default.env` exists, the live file is created as a byte-for-byte
copy of the template; when neither exists, construction fails with the
env-file-not-found configuration error; once the live file exists the copy
is never re-attempted, whatever the template now holds. -/
theorem bootstrapEnv_spec (c e : Str) (d : Option Str) :
    bootstrapEnv ⟨none, some c⟩ = .ok ⟨some c, some c⟩ ∧
    bootstrapEnv ⟨none, none⟩ = .error .envFileNotFound ∧
    bootstrapEnv ⟨some e, d⟩ = .ok ⟨some e, d⟩ :=
  ⟨rfl, rfl, rfl⟩

/-! ### Environment-file loader lemmas (for C4) -/

/-- Lines the reader skips are identity steps of the fold. -/
lemma stepLine_of_none {m : EnvF} {l : Str} (h : classifyLine l = none) :
    stepLine m l = m := by
  simp [stepLine, h]

/-- Skipped lines can be filtered out without changing the fold. -/
lemma foldl_stepLine_filter (lines : List Str) :
    ∀ acc : EnvF, lines.foldl stepLine acc
      = (lines.filter fun l => (classifyLine l).isSome).foldl stepLine acc := by
  induction lines with
  | nil => intro acc; rfl
  | cons l t ih =>
    intro acc
    cases h : classifyLine l with
    | none =>
      simp only [List.foldl_cons, List.filter_cons, h, Option.isSome_none,
        stepLine_of_none h]
      exact ih acc
    | some kv =>
      simp only [List.foldl_cons, List.filter_cons, h, Option.isSome_some,
        if_pos rfl]
      exact ih (stepLine acc l)

/-- Every binding in the folded map comes from the accumulator or from a
line the reader classified as a `KEY=VALUE` line with that key and value. -/
lemma foldl_stepLine_sound (lines : List Str) :
    ∀ (acc : EnvF) (k v : Str), (lines.foldl stepLine acc) k = some v →
      acc k = some v ∨ ∃ l ∈ lines, classifyLine l = some (k, v) := by
  induction lines with
  | nil => intro acc k v h; exact Or.inl h
  | cons l t ih =>
    intro acc k v h
    rcases ih (stepLine acc l) k v h with hacc | ⟨l', hl', hc⟩
    · cases hc : classifyLine l with
      | none => rw [stepLine_of_none hc] at hacc; exact Or.inl hacc
      | some kv =>
        obtain ⟨k', v'⟩ := kv
        simp only [stepLine, hc, insertEnv] at hacc
        by_cases hk : k = k'
        · subst hk
          simp at hacc
          exact Or.inr ⟨l, List.mem_cons_self l t, by rw [hc, hacc]⟩
        · rw [if_neg hk] at hacc
          exact Or.inl hacc
    · exact Or.inr ⟨l', List.mem_cons_of_mem l hl', hc⟩

/-- A key bound in the accumulator stays bound through the fold. -/
lemma foldl_stepLine_keeps (lines : List Str) :
    ∀ (acc : EnvF) (k : Str), (acc k).isSome →
      ((lines.foldl stepLine acc) k).isSome := by
  induction lines with
  | nil => intro acc k h; exact h
  | cons l t ih =>
    intro acc k h
    apply ih
    cases hc : classifyLine l with
    | none => rw [stepLine_of_none hc]; exact h
    | some kv =>
      obtain ⟨k', v'⟩ := kv
      simp only [stepLine, hc, insertEnv]
      by_cases hk : k = k'
      · simp [hk]
      · rw [if_neg hk]; exact h

/-- Every line the reader classifies as `KEY=VALUE` leaves its key bound in
the folded map. -/
lemma foldl_stepLine_complete (lines : List Str) :
    ∀ (acc : EnvF) (l k v : Str), l ∈ lines → classifyLine l = some (k, v) →
      ((lines.foldl stepLine acc) k).isSome := by
  induction lines with
  | nil => intro _ _ _ _ h; exact absurd h (List.not_mem_nil _)
  | cons a t ih =>
    intro acc l k v hmem hc
    rcases List.mem_cons.mp hmem with rfl | hmem'
    · rw [List.foldl_cons]
      apply foldl_stepLine_keeps
      simp [stepLine, hc, insertEnv]
    · exact ih (stepLine acc a) l k v hmem' hc

/-- C4. The environment-file loader: blank lines, comment lines, and lines
without `=` contribute nothing (filtering them out leaves the mapping
unchanged); every binding of the mapping comes from some line classified as
`KEY=VALUE` (split on the first `=`, both sides stripped); and every
`KEY=VALUE` line leaves a binding for its stripped key. The loader is total:
no input line is an error. -/
theorem parseEnvLines_spec (lines : List Str) :
    parseEnvLines lines
      = parseEnvLines (lines.filter fun l => (classifyLine l).isSome) ∧
    (∀ k v, parseEnvLines lines k = some v →
      ∃ l ∈ lines, classifyLine l = some (k, v)) ∧
    (∀ l ∈ lines, ∀ k v, classifyLine l = some (k, v) →
      (parseEnvLines lines k).isSome) := by
  refine ⟨foldl_stepLine_filter lines emptyEnv, fun k v h => ?_, ?_⟩
  · rcases foldl_stepLine_sound lines emptyEnv k v h with hacc | hfound
    · exact absurd hacc (by simp [emptyEnv])
    · exact hfound
  · intro l hl k v hc
    exact foldl_stepLine_complete lines emptyEnv l k v hl hc

/-- C4 witness: on a file mixing a well-formed pair, a comment, a blank
line, a malformed line, and a value containing `=`, the mapping holds the
pair with whitespace stripped and the key split at the first `=`. -/
theorem parseEnvLines_spec_witness :
    (parseEnvLines [str " KEY = VALUE ", str "# note", str "  ",
      str "malformed", str "A=b=c"] (str "KEY")).isSome = true ∧
    parseEnvLines [str " KEY = VALUE ", str "# note", str "  ",
      str "malformed", str "A=b=c"] (str "A") = some (str "b=c") := by
  constructor
  · exact (parseEnvLines_spec _).2.2 (str " KEY = VALUE ") (by decide)
      (str "KEY") (str "VALUE") (by decide)
  · decide

/-! ### ProjectConfig construction lemmas (for C2, C7, C8, C10) -/

/-- Construction fails with the project-name error when `PROJECT_NAME` is
absent from the loaded environment or loaded as the empty (falsy) string. -/
lemma mk_error_of_pn {root : Str} {lines : List Str}
    (h : parseEnvLines lines keyProjectName = none ∨
         parseEnvLines lines keyProjectName = some []) :
    mkProjectConfig root lines = .error .projectNameMissing := by
  rcases h with h | h <;> simp [mkProjectConfig, h]

/-- Construction succeeds whenever `PROJECT_NAME` loads as a non-empty
string, and records that string as the project name. -/
lemma mk_ok_of_pn {root lines v} (hpn : parseEnvLines lines keyProjectName = some v)
    (hne : v ≠ []) :
    ∃ pc w, mkProjectConfig root lines = .ok (pc, w) ∧ pc.project_name = v := by
  simp only [mkProjectConfig, hpn, if_neg hne]
  exact ⟨_, _, rfl, rfl⟩

/-- Inversion of a successful construction: every field of the resulting
`ProjectConfig`, and the container-root/warning alternative. -/
lemma mk_ok_inv {root lines pc w} (h : mkProjectConfig root lines = .ok (pc, w)) :
    pc.root_dir = root ∧
    pc.dip_dir = root ++ str "/" ++ DIR_NAME ∧
    pc.env_file = root ++ str "/" ++ DIR_NAME ++ str "/.env" ∧
    pc.env_name = parseEnvLines lines ∧
    parseEnvLines lines keyProjectName = some pc.project_name ∧
    pc.project_name ≠ [] ∧
    ((∃ v, parseEnvLines lines keyContainerRoot = some v ∧ v ≠ [] ∧
        pc.container_dir = v ∧ w = []) ∨
     ((parseEnvLines lines keyContainerRoot = none ∨
       parseEnvLines lines keyContainerRoot = some []) ∧
      pc.container_dir = containerRootDefault ∧ w = [.containerRootDefault])) := by
  cases hpn : parseEnvLines lines keyProjectName with
  | none => simp [mkProjectConfig, hpn] at h
  | some pn =>
    by_cases hne : pn = []
    · subst hne
      simp [mkProjectConfig, hpn] at h
    · cases hcr : parseEnvLines lines keyContainerRoot with
      | none =>
        simp only [mkProjectConfig, hpn, if_neg hne, hcr, Except.ok.injEq,
          Prod.mk.injEq] at h
        obtain ⟨rfl, rfl⟩ := h
        exact ⟨rfl, rfl, rfl, rfl, rfl, hne, Or.inr ⟨Or.inl rfl, rfl, rfl⟩⟩
      | some c =>
        by_cases hce : c = []
        · subst hce
          simp only [mkProjectConfig, hpn, if_neg hne, hcr, Except.ok.injEq,
            Prod.mk.injEq] at h
          obtain ⟨rfl, rfl⟩ := h
          exact ⟨rfl, rfl, rfl, rfl, rfl, hne, Or.inr ⟨Or.inr rfl, rfl, rfl⟩⟩
        · simp only [mkProjectConfig, hpn, if_neg hne, hcr, if_neg hce,
            Except.ok.injEq, Prod.mk.injEq] at h
          obtain ⟨rfl, rfl⟩ := h
          exact ⟨rfl, rfl, rfl, rfl, rfl, hne, Or.inl ⟨c, rfl, hce, rfl, rfl⟩⟩

/-- C7 counterexample: the line `PROJECT_NAME=` puts the key into the loaded
mapping (with an empty value), yet construction fails — refuting "when the
key is present, construction proceeds". -/
theorem projectName_present_empty_fails :
    parseEnvLines [str "PROJECT_NAME="] keyProjectName = some [] ∧
    mkProjectConfig (str "/work/app") [str "PROJECT_NAME="]
      = .error .projectNameMissing :=
  ⟨rfl, rfl⟩

/-- C7 (amended). Construction fails with the fatal project-name
configuration error when `PROJECT_NAME` is absent from the loaded
environment or loaded with an empty value; when it is present with a
non-empty value, construction proceeds and `project_name` is that value. -/
theorem projectName_required (root : Str) (lines : List Str) :
    (∀ v, parseEnvLines lines keyProjectName = some v → v ≠ [] →
      ∃ pc w, mkProjectConfig root lines = .ok (pc, w) ∧ pc.project_name = v) ∧
    ((parseEnvLines lines keyProjectName = none ∨
      parseEnvLines lines keyProjectName = some []) →
      mkProjectConfig root lines = .error .projectNameMissing) :=
  ⟨fun _ hpn hne => mk_ok_of_pn hpn hne, fun h => mk_error_of_pn h⟩

/-- C7 witness: a file with `PROJECT_NAME=app` builds, with project name
`app`; a file without it fails with the project-name error. -/
theorem projectName_required_witness :
    (builtConfig (str "/work/app") [str "PROJECT_NAME=app"]).map
      ProjectConfig.project_name = some (str "app") ∧
    mkProjectConfig (str "/work/app") [str "A=b"]
      = .error .projectNameMissing := by
  constructor
  · obtain ⟨pc, w, hmk, hname⟩ :=
      (projectName_required (str "/work/app") [str "PROJECT_NAME=app"]).1
        (str "app") rfl (by decide)
    simp [builtConfig, hmk, hname]
  · exact (projectName_required (str "/work/app") [str "A=b"]).2 (Or.inl rfl)

/-- C8 counterexample: the line `CONTAINER_ROOT=` sets the key in the loaded
environment (to the empty string), yet the constructed prefix is the default
`/var/www` and the warning is emitted — refuting "when the key is set, the
prefix equals its loaded value and no such warning is emitted". -/
theorem containerRoot_set_empty_defaults :
    parseEnvLines [str "PROJECT_NAME=app", str "CONTAINER_ROOT="]
      keyContainerRoot = some [] ∧
    (builtConfig (str "/work/app") [str "PROJECT_NAME=app", str "CONTAINER_ROOT="]).map
      ProjectConfig.container_dir = some containerRootDefault ∧
    builtWarnings (str "/work/app") [str "PROJECT_NAME=app", str "CONTAINER_ROOT="]
      = some [Warning.containerRootDefault] :=
  ⟨rfl, rfl, rfl⟩

/-- C8 (amended). When the loaded environment does not set `CONTAINER_ROOT`
to a non-empty value, the container path prefix is the documented default
`/var/www` and exactly one warning is emitted while construction proceeds;
when the key is set to a non-empty value, the prefix is that value and no
warning is emitted. -/
theorem containerRoot_default (root : Str) (lines : List Str)
    (pc : ProjectConfig) (w : List Warning)
    (h : mkProjectConfig root lines = .ok (pc, w)) :
    (∀ v, parseEnvLines lines keyContainerRoot = some v → v ≠ [] →
      pc.container_dir = v ∧ w = []) ∧
    ((parseEnvLines lines keyContainerRoot = none ∨
      parseEnvLines lines keyContainerRoot = some []) →
      pc.container_dir = containerRootDefault ∧ w = [.containerRootDefault]) := by
  obtain ⟨-, -, -, -, -, -, hcr⟩ := mk_ok_inv h
  constructor
  · intro v hv hvne
    rcases hcr with ⟨v', hv', hv'ne, hdir, hw⟩ | ⟨habs, -, -⟩
    · rw [hv] at hv'
      obtain rfl := Option.some.injEq _ _ ▸ hv'
      exact ⟨hdir, hw⟩
    · rcases habs with habs | habs
      · rw [hv] at habs; exact absurd habs (by simp)
      · rw [hv] at habs
        exact absurd (Option.some.inj habs) hvne
  · intro habs
    rcases hcr with ⟨v', hv', hv'ne, -, -⟩ | ⟨-, hdir, hw⟩
    · rcases habs with habs | habs
      · rw [habs] at hv'; exact absurd hv' (by simp)
      · rw [habs] at hv'
        exact absurd (Option.some.inj hv').symm hv'ne
    · exact ⟨hdir, hw⟩

/-- C8 witness: the spec's end-to-end scenario — `/work/app` with
`PROJECT_NAME=app` and no `CONTAINER_ROOT` yields the default prefix and
exactly one warning; setting `CONTAINER_ROOT=/srv` yields `/srv` and none. -/
theorem containerRoot_default_witness :
    (builtConfig (str "/work/app") [str "PROJECT_NAME=app"]).map
      ProjectConfig.container_dir = some (str "/var/www") ∧
    builtWarnings (str "/work/app") [str "PROJECT_NAME=app"]
      = some [Warning.containerRootDefault] ∧
    (builtConfig (str "/work/app")
      [str "PROJECT_NAME=app", str "CONTAINER_ROOT=/srv"]).map
      ProjectConfig.container_dir = some (str "/srv") ∧
    builtWarnings (str "/work/app") [str "PROJECT_NAME=app", str "CONTAINER_ROOT=/srv"]
      = some [] := by
  have h1 : mkProjectConfig (str "/work/app") [str "PROJECT_NAME=app"]
      = .ok ({ root_dir := str "/work/app"
             , dip_dir := str "/work/app" ++ str "/" ++ DIR_NAME
             , env_file := str "/work/app" ++ str "/" ++ DIR_NAME ++ str "/.env"
             , default_env_file :=
                 str "/work/app" ++ str "/" ++ DIR_NAME ++ str "/default.env"
             , compose_file :=
                 str "/work/app" ++ str "/" ++ DIR_NAME ++ str "/docker-compose.yml"
             , project_name := str "app"
             , container_dir := str "/var/www"
             , env_name := parseEnvLines [str "PROJECT_NAME=app"] },
             [Warning.containerRootDefault]) := rfl
  have h2 : mkProjectConfig (str "/work/app")
      [str "PROJECT_NAME=app", str "CONTAINER_ROOT=/srv"]
      = .ok ({ root_dir := str "/work/app"
             , dip_dir := str "/work/app" ++ str "/" ++ DIR_NAME
             , env_file := str "/work/app" ++ str "/" ++ DIR_NAME ++ str "/.env"
             , default_env_file :=
                 str "/work/app" ++ str "/" ++ DIR_NAME ++ str "/default.env"
             , compose_file :=
                 str "/work/app" ++ str "/" ++ DIR_NAME ++ str "/docker-compose.yml"
             , project_name := str "app"
             , container_dir := str "/srv"
             , env_name := parseEnvLines
                 [str "PROJECT_NAME=app", str "CONTAINER_ROOT=/srv"] },
             []) := rfl
  obtain ⟨hd1, hw1⟩ := (containerRoot_default _ _ _ _ h1).2 (Or.inl rfl)
  obtain ⟨hd2, hw2⟩ := (containerRoot_default _ _ _ _ h2).1 (str "/srv") rfl (by decide)
  refine ⟨?_, ?_, ?_, ?_⟩
  · simp only [builtConfig, h1, Option.map_some]
    exact congrArg some hd1
  · simp only [builtWarnings, h1]
  · simp only [builtConfig, h2, Option.map_some]
    exact congrArg some hd2
  · simp only [builtWarnings, h2]

/-- C10. An empty value is treated like an absent key in both reserved-key
checks: `PROJECT_NAME=` fails exactly like a file without the key, and
`CONTAINER_ROOT=` yields the same default prefix and the same single
warning as a file without the key. -/
theorem emptyValue_like_absent (root : Str) :
    mkProjectConfig root [str "PROJECT_NAME="] = .error .projectNameMissing ∧
    mkProjectConfig root [] = .error .projectNameMissing ∧
    (builtConfig root [str "PROJECT_NAME=app", str "CONTAINER_ROOT="]).map
        ProjectConfig.container_dir
      = (builtConfig root [str "PROJECT_NAME=app"]).map ProjectConfig.container_dir ∧
    (builtConfig root [str "PROJECT_NAME=app", str "CONTAINER_ROOT="]).map
        ProjectConfig.container_dir = some containerRootDefault ∧
    builtWarnings root [str "PROJECT_NAME=app", str "CONTAINER_ROOT="]
      = some [Warning.containerRootDefault] ∧
    builtWarnings root [str "PROJECT_NAME=app"]
      = some [Warning.containerRootDefault] :=
  ⟨rfl, rfl, rfl, rfl, rfl, rfl⟩

/-- C2. The subprocess environment of a constructed project: the eight
reserved computed keys always hold their computed values — in particular
`COMPOSE_PROJECT_NAME` equals the project name read from the env file's
`PROJECT_NAME` — whatever the env file or process environment contain; and
every non-reserved key takes the env-file value when the file binds it,
falling back to the inherited process environment otherwise. -/
theorem get_env_reserved (root : Str) (lines : List Str) (procEnv : EnvF)
    (uid gid : Str) (pc : ProjectConfig) (w : List Warning)
    (h : mkProjectConfig root lines = .ok (pc, w)) :
    get_env pc procEnv uid gid keyProjectRoot = some pc.root_dir ∧
    get_env pc procEnv uid gid keyProjectName = some pc.project_name ∧
    get_env pc procEnv uid gid keyComposeName = some pc.project_name ∧
    get_env pc procEnv uid gid keyContainerRoot = some pc.container_dir ∧
    get_env pc procEnv uid gid keyDipDir = some pc.dip_dir ∧
    get_env pc procEnv uid gid keyEnvFile = some pc.env_file ∧
    get_env pc procEnv uid gid keyHostUid = some uid ∧
    get_env pc procEnv uid gid keyHostGid = some gid ∧
    parseEnvLines lines keyProjectName = some pc.project_name ∧
    (∀ k, k ∉ reservedKeys →
      (∀ v, pc.env_name k = some v → get_env pc procEnv uid gid k = some v) ∧
      (pc.env_name k = none → get_env pc procEnv uid gid k = procEnv k)) := by
  obtain ⟨-, -, -, -, hpn, -, -⟩ := mk_ok_inv h
  refine ⟨rfl, rfl, rfl, rfl, rfl, rfl, rfl, rfl, hpn, ?_⟩
  intro k hk
  simp only [reservedKeys, List.mem_cons, List.not_mem_nil, or_false] at hk
  push_neg at hk
  obtain ⟨h1, h2, h3, h4, h5, h6, h7, h8⟩ := hk
  constructor
  · intro v hv
    simp [get_env, insertEnv, h1, h2, h3, h4, h5, h6, h7, h8, hv]
  · intro hnone
    simp [get_env, insertEnv, h1, h2, h3, h4, h5, h6, h7, h8, hnone]

/-- C2 witness: a file that sets `PROJECT_NAME=app` and (incorrectly) sets
the compose-reserved key to `evil` still yields a subprocess environment
whose compose-project key is `app`. -/
theorem get_env_reserved_witness :
    composeNameView (str "/work/app")
      [str "PROJECT_NAME=app", str "COMPOSE_PROJECT_NAME=evil"]
      = some (some (str "app")) := by
  have h : mkProjectConfig (str "/work/app")
      [str "PROJECT_NAME=app", str "COMPOSE_PROJECT_NAME=evil"]
      = .ok ({ root_dir := str "/work/app"
             , dip_dir := str "/work/app" ++ str "/" ++ DIR_NAME
             , env_file := str "/work/app" ++ str "/" ++ DIR_NAME ++ str "/.env"
             , default_env_file :=
                 str "/work/app" ++ str "/" ++ DIR_NAME ++ str "/default.env"
             , compose_file :=
                 str "/work/app" ++ str "/" ++ DIR_NAME ++ str "/docker-compose.yml"
             , project_name := str "app"
             , container_dir := str "/var/www"
             , env_name := parseEnvLines
                 [str "PROJECT_NAME=app", str "COMPOSE_PROJECT_NAME=evil"] },
             [Warning.containerRootDefault]) := rfl
  have hc := (get_env_reserved _ _ emptyEnv (str "0") (str "0") _ _ h).2.2.1
  simp only [composeNameView, h]
  exact congrArg some hc

end Dip
